import Mathlib

/-!
Shallow embedding of the lazy-materialization cache engine of
`s3archivefs` (files `src/s3archivefs/src/repo.rs`,
`src/s3archivefs/src/hook_helper.rs`, `src/s3archivefs/src/squashfs.rs`).

Machine integers are modelled as `Nat` (with an explicit `% 2^64` where
u64 wrap-around matters).  The local sparse cache file is a byte map
`Nat → Nat`; the remote object is a byte map plus a content length.
Network transport and local I/O failures are outside the pure model:
remote fetches and positioned reads are modelled as succeeding, and the
effects of each operation (ranges fetched, fill calls issued, lock
acquisition, file mutation) are returned explicitly.  A Rust `panic!`
(process abort) is modelled as `none` / a dedicated `panic` outcome.
-/

namespace S3ArchiveFs

/-- Hole detection mode, `repo.rs` `enum HoleDetectMode`. -/
inductive HoleDetectMode
| ALLZERO
| LSEEK
deriving DecidableEq

/-- Pure model of the per-mount context `Local` (`repo.rs`).  Only the
fields read by the embedded operations are kept: presence of a remote,
`sb.inode_table_start`, the archive (cache) file size as reported by
`Archive::get_archive_file_size`, the hole-detect mode and `chunk_log`.
The remote object is carried as its byte contents and content length. -/
structure Local where
  hasRemote : Bool
  inode_table_start : Nat
  archive_file_size : Nat
  hdmode : HoleDetectMode
  chunk_log : Nat
  remote : Nat → Nat
  remoteLen : Nat

/-- `repo.rs` `Local::is_metadata_area`.  Returns `some false` when
`offset < sb.inode_table_start`, panics (`none`) when
`offset > archive_file_size`, and returns `some true` otherwise. -/
def is_metadata_area (l : Local) (offset : Nat) : Option Bool :=
  if offset < l.inode_table_start then some false
  else if offset > l.archive_file_size then none
  else some true

/-- Effects of one call to `Local::request_remote_data_task`
(`repo.rs`): whether it returned `Ok`, the remote window
`(aligned_start, aligned_end)` requested as inclusive HTTP range
`bytes=aligned_start-(aligned_end-1)` (or `none` when no fetch was
issued), whether the exclusive file lock was taken, and the cache file
contents after the call. -/
structure FillEffect where
  ok : Bool
  fetched : Option (Nat × Nat)
  lockTaken : Bool
  outFile : Nat → Nat

/-- `repo.rs` `Local::request_remote_data_task`.  With no remote it
returns `Ok(())` immediately.  Otherwise it computes
`aligned_start = (start_offset >> chunk_log) << chunk_log` and
`aligned_end = (((start_offset + req_size) >> chunk_log) << chunk_log) + chunk_size`,
requests the inclusive range `bytes=aligned_start-(aligned_end-1)`,
seeks to `aligned_start`, takes the exclusive lock and stream-copies the
response into the cache.  The remote (HTTP range semantics) serves at
most up to its content length, so the bytes written are
`[aligned_start, min aligned_end remoteLen)`.  Transport and lock
failures are outside the pure model (the fill is modelled as
succeeding). -/
def request_remote_data_task (l : Local) (file : Nat → Nat)
    (start_offset req_size : Nat) : FillEffect :=
  if l.hasRemote = false then
    ⟨true, none, false, file⟩
  else
    let aligned_start := (start_offset >>> l.chunk_log) <<< l.chunk_log
    let chunk_size := (1 : Nat) <<< l.chunk_log
    let aligned_end :=
      (((start_offset + req_size) >>> l.chunk_log) <<< l.chunk_log) + chunk_size
    ⟨true, some (aligned_start, aligned_end), true,
      fun o => if aligned_start ≤ o ∧ o < min aligned_end l.remoteLen
               then l.remote o else file o⟩

/-- Bytes served by a positioned read of `size` bytes at `offset` from
the cache file (holes read as zero, which the byte map already
reflects). -/
def readRange (file : Nat → Nat) (offset size : Nat) : List Nat :=
  (List.range size).map (fun i => file (offset + i))

/-- `hook_helper.rs` `is_zero`.  The source splits the slice with
`align_to::<u128>` into prefix / aligned / suffix and checks each part
for zero; the three parts partition the buffer, so semantically the
check is: every byte of the buffer is zero. -/
def is_zero (buf : List Nat) : Bool :=
  buf.all (fun b => b == 0)

/-- Outcome of `archive_read_at`: abort (`panic!` inside
`is_metadata_area`), the two error codes it can return
(`SQFS_ERROR_OUT_OF_BOUNDS` for `ENXIO` from `lseek`, `SQFS_ERROR_IO`
otherwise), or a successful read serving a buffer. -/
inductive ReadAtResult
| panic
| errOutOfBounds
| errOther
| served (buf : List Nat)
deriving DecidableEq

/-- Trace of one call to `archive_read_at`: its outcome, the
`(start_offset, req_size)` arguments of each `request_remote_data_task`
call it issued, the `(offset, size)` of each delegated original
positioned read, the number of hole classifications performed
(`lseek(SEEK_HOLE)` query or all-zero buffer inspection), and the cache
file contents afterwards. -/
structure ReadAtOut where
  result : ReadAtResult
  fills : List (Nat × Nat)
  origReads : List (Nat × Nat)
  holeChecks : Nat
  outFile : Nat → Nat

/-- `hook_helper.rs` `archive_read_at`.  `lseekRes` is the value
returned by `lseek(fd, offset, SEEK_HOLE)` (negative on failure, with
`enxioFlag` telling whether `errno` was `ENXIO`); it is consulted only
in `LSEEK` mode.  The stashed original positioned read (stored in the
`write_at` slot) is modelled as succeeding and serving the cache file's
bytes; a fill error returning `SQFS_ERROR_IO` is unreachable in the
model because the modelled fill always succeeds. -/
def archive_read_at (l : Local) (file : Nat → Nat) (lseekRes : Int)
    (enxioFlag : Bool) (offset size : Nat) : ReadAtOut :=
  match is_metadata_area l offset with
  | none => ⟨.panic, [], [], 0, file⟩
  | some true =>
      ⟨.served (readRange file offset size), [], [(offset, size)], 0, file⟩
  | some false =>
    match l.hdmode with
    | .ALLZERO =>
      let buf := readRange file offset size
      let new_offset := if is_zero buf then offset else offset + size
      if new_offset < offset + size then
        let eff := request_remote_data_task l file new_offset
                     (offset + size - new_offset)
        ⟨.served (readRange eff.outFile offset size),
          [(new_offset, offset + size - new_offset)],
          [(offset, size), (offset, size)], 1, eff.outFile⟩
      else
        ⟨.served (readRange file offset size), [],
          [(offset, size), (offset, size)], 1, file⟩
    | .LSEEK =>
      if lseekRes < 0 then
        if enxioFlag then ⟨.errOutOfBounds, [], [], 1, file⟩
        else ⟨.errOther, [], [], 1, file⟩
      else
        let new_offset := lseekRes.toNat
        if new_offset < offset + size then
          let eff := request_remote_data_task l file new_offset
                       (offset + size - new_offset)
          ⟨.served (readRange eff.outFile offset size),
            [(new_offset, offset + size - new_offset)],
            [(offset, size)], 1, eff.outFile⟩
        else
          ⟨.served (readRange file offset size), [], [(offset, size)], 1, file⟩

/-- Result of the bootstrap branch of `Local::new` (`repo.rs`, the
`!exists || force` path with a remote configured): the length of the
sparse cache file it creates, the inclusive remote range it fetches for
the metadata region, and the final cache contents. -/
structure BootstrapOut where
  len : Nat
  fetched : Nat × Nat
  contents : Nat → Nat

/-- Bootstrap branch of `Local::new` (`repo.rs`), after
`Remote::get_metadata` returned `(sb_bin, filesize)`.  In order: the
file is created fresh (all holes, reading as zero), a single zero byte
is written at `filesize - 1` (so the file length is exactly `filesize`,
for `filesize ≥ 1`), `sb_bin` is written at offset 0, then
`meta_start = (sb.inode_table_start >> chunk_log) << chunk_log` is
computed and the inclusive remote range `[meta_start, filesize - 1]` is
fetched and written at offset `meta_start`.  `chunk_log` is taken as an
input; the source derives it from the chunk-size option and
`sb.block_log` (via an `f32` `log2`, outside this integer model). -/
def local_new_bootstrap (sb_bin : List Nat) (filesize : Nat)
    (inode_table_start chunk_log : Nat) (remote : Nat → Nat) : BootstrapOut :=
  let meta_start := (inode_table_start >>> chunk_log) <<< chunk_log
  let f0 : Nat → Nat := fun _ => 0
  let f1 : Nat → Nat := fun o => if o < sb_bin.length then sb_bin.getD o 0 else f0 o
  let f2 : Nat → Nat := fun o => if meta_start ≤ o ∧ o < filesize then remote o else f1 o
  ⟨filesize, (meta_start, filesize - 1), f2⟩

/-- Result of a `HeadObject` on the remote, as read by
`Remote::get_metadata` (`repo.rs`): the content length and the optional
user-metadata map (the AWS SDK returns the whole map as an `Option`). -/
structure HeadOutput where
  contentLength : Int
  metadata : Option (String → Option String)

/-- The well-known user-metadata key read by `Remote::get_metadata`. -/
def superblock_key : String := "s3archivefs-superblock"

/-- `repo.rs` `Remote::get_metadata`.  `decode` models
`base64::decode` (`none` on invalid input; on the empty string real
base64 decoding yields the empty byte vector) and `sbSize` models
`size_of::<sqfs_super_t>()`.  The source maps the metadata map to the
key's value (defaulting to the empty string when the key is missing)
and then calls `Option::unwrap` on the result: when the metadata map
itself is absent this panics, modelled as `none`.  Otherwise a decode
failure or a decoded length different from `sbSize` yields `Err`
(modelled `some (.error msg)`), and success yields the decoded bytes
with the content length. -/
def get_metadata (decode : String → Option (List Nat)) (sbSize : Nat)
    (h : HeadOutput) : Option (Except String (List Nat × Int)) :=
  let encoded : Option String := h.metadata.map (fun m => (m superblock_key).getD "")
  match encoded with
  | none => none
  | some s =>
    match decode s with
    | none => some (.error "failed to get superblock bin from metadata")
    | some sb_bin =>
      if sb_bin.length ≠ sbSize then some (.error "incorrect superblock size")
      else some (.ok (sb_bin, h.contentLength))

/-- Fields of `sqfs_inode_generic_t.base` used by `Archive::stat`
(`squashfs.rs`): permission bits, modification time, inode number. -/
structure InodeBase where
  mode : Nat
  mod_time : Nat
  inode_number : Nat

/-- Type tag and per-type payload of an inode, mirroring the `match` on
`(*inode).base.type_` in `Archive::stat` (`squashfs.rs`).  Each variant
carries exactly the fields that case reads. -/
inductive InodeData
| file (file_size : Nat)
| file_ext (file_size sparse nlink : Nat)
| dir (size nlink : Nat)
| dir_ext (size nlink : Nat)
| fifo (nlink : Nat)
| fifo_ext (nlink : Nat)
| socket (nlink : Nat)
| socket_ext (nlink : Nat)
| bdev (nlink devno : Nat)
| bdev_ext (nlink devno : Nat)
| cdev (nlink devno : Nat)
| cdev_ext (nlink devno : Nat)
| slink (nlink target_size : Nat)
| slink_ext (nlink target_size : Nat)
deriving DecidableEq

/-- The fields of `libc::stat64` that `Archive::stat` fills
(`squashfs.rs`; `st_dev`, `st_blksize` and the nanosecond fields are
always zero there and are omitted). -/
structure Stat64 where
  st_ino : Nat
  st_nlink : Nat
  st_mode : Nat
  st_uid : Nat
  st_gid : Nat
  st_rdev : Nat
  st_size : Nat
  st_blocks : Nat
  st_atime : Nat
  st_mtime : Nat
  st_ctime : Nat
deriving DecidableEq

/-- `libc` file-type bits (octal values of `S_IFREG` etc. on Linux). -/
def S_IFREG : Nat := 0o100000
def S_IFDIR : Nat := 0o040000
def S_IFIFO : Nat := 0o010000
def S_IFSOCK : Nat := 0o140000
def S_IFBLK : Nat := 0o060000
def S_IFCHR : Nat := 0o020000
def S_IFLNK : Nat := 0o120000

/-- Modulus of `u64` arithmetic. -/
def U64 : Nat := 2 ^ 64

/-- Per-case values computed by the `match` in `Archive::stat`:
`st_mode`, `st_nlink`, `st_size`, `st_blocks`, `st_rdev`. -/
structure StatCore where
  st_mode : Nat
  st_nlink : Nat
  st_size : Nat
  st_blocks : Nat
  st_rdev : Nat

/-- `squashfs.rs` `Archive::stat`.  `uid`/`gid` come from the resolved
tree node.  For a basic regular file `st_blocks` is `0` when the size
is `0` and `((size - 1) >> 9) + 1` otherwise; for an extended regular
file the source computes `st_size + sparse - 511` in `u64` (wrapping on
underflow, as in a release build; a debug build would abort there) and
shifts right by 9.  `st_atime` and `st_ctime` are set to `0`;
`st_mtime` is the inode's `mod_time`. -/
def Archive.stat (base : InodeBase) (data : InodeData) (uid gid : Nat) : Stat64 :=
  let core : StatCore :=
    match data with
    | .file file_size =>
        ⟨base.mode ||| S_IFREG, 1, file_size,
          if file_size = 0 then 0 else ((file_size - 1) >>> 9) + 1, 0⟩
    | .file_ext file_size sparse nlink =>
        ⟨base.mode ||| S_IFREG, nlink, file_size,
          ((file_size + sparse + (U64 - 511)) % U64) >>> 9, 0⟩
    | .dir size nlink => ⟨base.mode ||| S_IFDIR, nlink, size, 0, 0⟩
    | .dir_ext size nlink => ⟨base.mode ||| S_IFDIR, nlink, size, 0, 0⟩
    | .fifo nlink => ⟨base.mode ||| S_IFIFO, nlink, 0, 0, 0⟩
    | .fifo_ext nlink => ⟨base.mode ||| S_IFIFO, nlink, 0, 0, 0⟩
    | .socket nlink => ⟨base.mode ||| S_IFSOCK, nlink, 0, 0, 0⟩
    | .socket_ext nlink => ⟨base.mode ||| S_IFSOCK, nlink, 0, 0, 0⟩
    | .bdev nlink devno => ⟨base.mode ||| S_IFBLK, nlink, 0, 0, devno⟩
    | .bdev_ext nlink devno => ⟨base.mode ||| S_IFBLK, nlink, 0, 0, devno⟩
    | .cdev nlink devno => ⟨base.mode ||| S_IFCHR, nlink, 0, 0, devno⟩
    | .cdev_ext nlink devno => ⟨base.mode ||| S_IFCHR, nlink, 0, 0, devno⟩
    | .slink nlink target_size => ⟨base.mode ||| S_IFLNK, nlink, target_size, 0, 0⟩
    | .slink_ext nlink target_size => ⟨base.mode ||| S_IFLNK, nlink, target_size, 0, 0⟩
  { st_ino := base.inode_number
    st_nlink := core.st_nlink
    st_mode := core.st_mode
    st_uid := uid
    st_gid := gid
    st_rdev := core.st_rdev
    st_size := core.st_size
    st_blocks := core.st_blocks
    st_atime := 0
    st_mtime := base.mod_time
    st_ctime := 0 }

/-- The claim formula for the fill window's upper end:
`(start_offset + length + chunk - 1) & not (chunk - 1)` with
`chunk = 1 << chunk_log`, clipped to the archive length.  Stated from
the specification's words, to be compared with the window the source
computes. -/
def aligned_end_claim (chunk_log start_offset len archiveLen : Nat) : Nat :=
  min ((((start_offset + len + (1 <<< chunk_log) - 1) >>> chunk_log) <<< chunk_log))
      archiveLen

/-- The specification's formula for the extended regular file
`st_blocks`: `(size - sparse + 511) >> 9` (the formula the Linux
squashfs driver uses; truncated subtraction never occurs for genuine
inodes, where `sparse ≤ size`).  Stated from the specification's words,
to be compared with the source's computation. -/
def stat_blocks_ext_claim (file_size sparse : Nat) : Nat :=
  (file_size - sparse + 511) >>> 9

/-! Helper lemmas about the `(x >> l) << l` alignment idiom. -/

lemma shiftRight_shiftLeft_eq (a l : Nat) : (a >>> l) <<< l = a - a % 2 ^ l := by
  rw [Nat.shiftRight_eq_div_pow, Nat.shiftLeft_eq]
  refine (Nat.sub_eq_of_eq_add ?_).symm
  rw [Nat.mul_comm]
  exact (Nat.div_add_mod a (2 ^ l)).symm

lemma shiftRight_shiftLeft_mod (a l : Nat) : ((a >>> l) <<< l) % 2 ^ l = 0 := by
  rw [Nat.shiftRight_eq_div_pow, Nat.shiftLeft_eq]
  exact Nat.mul_mod_left _ _

lemma shiftRight_shiftLeft_le (a l : Nat) : (a >>> l) <<< l ≤ a := by
  rw [Nat.shiftRight_eq_div_pow, Nat.shiftLeft_eq]
  exact Nat.div_mul_le_self a (2 ^ l)

lemma lt_shiftRight_shiftLeft_add (a l : Nat) : a < (a >>> l) <<< l + 2 ^ l := by
  rw [Nat.shiftRight_eq_div_pow, Nat.shiftLeft_eq]
  have h1 : a % 2 ^ l < 2 ^ l := Nat.mod_lt _ (Nat.pos_pow_of_pos l (by decide))
  conv_lhs => rw [← Nat.div_add_mod a (2 ^ l)]
  rw [Nat.mul_comm]
  exact Nat.add_lt_add_left h1 _

lemma one_shiftLeft_eq (l : Nat) : (1 : Nat) <<< l = 2 ^ l := by
  rw [Nat.shiftLeft_eq, Nat.one_mul]

/-- C9: with no remote configured, `request_remote_data_task` returns
`Ok(())` immediately: no range is fetched, the file lock is not taken,
and the cache file is unchanged. -/
theorem request_remote_data_task_no_remote (l : Local) (file : Nat → Nat)
    (s r : Nat) (h : l.hasRemote = false) :
    request_remote_data_task l file s r = ⟨true, none, false, file⟩ := by
  simp [request_remote_data_task, h]

/-- C9 witness at a concrete context and file. -/
theorem request_remote_data_task_no_remote_witness :
    (Local.mk false 100 1000 .LSEEK 12 (fun _ => 7) 1000).hasRemote = false ∧
    request_remote_data_task (Local.mk false 100 1000 .LSEEK 12 (fun _ => 7) 1000)
      (fun o => o) 1 2 = ⟨true, none, false, fun o => o⟩ :=
  ⟨rfl, request_remote_data_task_no_remote _ _ 1 2 rfl⟩

/-- C10: `is_metadata_area` returns `false` exactly for offsets below
`sb.inode_table_start`; for offsets between `inode_table_start` and the
archive file size it returns `true`; for offsets strictly beyond the
archive file size (with `inode_table_start ≤ archive_file_size`, as for
any well-formed archive) it panics, so an intercepted read starting
past end-of-archive aborts instead of returning an error code. -/
theorem is_metadata_area_cases (l : Local) (file : Nat → Nat)
    (lseekRes : Int) (e : Bool) (offset size : Nat)
    (hle : l.inode_table_start ≤ l.archive_file_size) :
    (is_metadata_area l offset = some false ↔ offset < l.inode_table_start) ∧
    (l.inode_table_start ≤ offset → offset ≤ l.archive_file_size →
      is_metadata_area l offset = some true) ∧
    (l.archive_file_size < offset →
      is_metadata_area l offset = none ∧
      (archive_read_at l file lseekRes e offset size).result = .panic) := by
  refine ⟨?_, ?_, ?_⟩
  · constructor
    · intro h2
      unfold is_metadata_area at h2
      by_cases h1 : offset < l.inode_table_start
      · exact h1
      · by_cases h3 : offset > l.archive_file_size <;> simp [h1, h3] at h2
    · intro h2
      simp [is_metadata_area, h2]
  · intro h1 h2
    simp [is_metadata_area, Nat.not_lt.mpr h1, Nat.not_lt.mpr h2]
  · intro h1
    have h2 : ¬ offset < l.inode_table_start :=
      Nat.not_lt.mpr (le_trans hle (le_of_lt h1))
    have hm : is_metadata_area l offset = none := by
      simp [is_metadata_area, h2, h1]
    exact ⟨hm, by unfold archive_read_at; rw [hm]⟩

/-- C10 witness: a context with `inode_table_start = 10` and archive
file size `20`, probed at offset `25` (past end-of-archive). -/
theorem is_metadata_area_cases_witness :
    (Local.mk true 10 20 .LSEEK 4 (fun _ => 7) 20).inode_table_start ≤
      (Local.mk true 10 20 .LSEEK 4 (fun _ => 7) 20).archive_file_size ∧
    ((is_metadata_area (Local.mk true 10 20 .LSEEK 4 (fun _ => 7) 20) 25 = some false ↔
        25 < (Local.mk true 10 20 .LSEEK 4 (fun _ => 7) 20).inode_table_start) ∧
     ((Local.mk true 10 20 .LSEEK 4 (fun _ => 7) 20).inode_table_start ≤ 25 →
        25 ≤ (Local.mk true 10 20 .LSEEK 4 (fun _ => 7) 20).archive_file_size →
        is_metadata_area (Local.mk true 10 20 .LSEEK 4 (fun _ => 7) 20) 25 = some true) ∧
     ((Local.mk true 10 20 .LSEEK 4 (fun _ => 7) 20).archive_file_size < 25 →
        is_metadata_area (Local.mk true 10 20 .LSEEK 4 (fun _ => 7) 20) 25 = none ∧
        (archive_read_at (Local.mk true 10 20 .LSEEK 4 (fun _ => 7) 20)
          (fun _ => 0) 0 false 25 3).result = .panic)) :=
  ⟨by decide, is_metadata_area_cases _ (fun _ => 0) 0 false 25 3 (by decide)⟩

/-- C7: for an intercepted read whose offset is at least
`sb.inode_table_start` and at most the archive file size,
`archive_read_at` delegates directly to the original positioned read:
one original read, no hole classification, no fill request, and the
cache file untouched. -/
theorem archive_read_at_metadata_delegates (l : Local) (file : Nat → Nat)
    (lseekRes : Int) (e : Bool) (offset size : Nat)
    (hlo : l.inode_table_start ≤ offset) (hhi : offset ≤ l.archive_file_size) :
    archive_read_at l file lseekRes e offset size =
      ⟨.served (readRange file offset size), [], [(offset, size)], 0, file⟩ := by
  have hm : is_metadata_area l offset = some true := by
    simp [is_metadata_area, Nat.not_lt.mpr hlo, Nat.not_lt.mpr hhi]
  unfold archive_read_at
  rw [hm]

/-- C7 witness at a concrete context, offset `150` inside the metadata
region `[100, 1000]`. -/
theorem archive_read_at_metadata_delegates_witness :
    (Local.mk true 100 1000 .LSEEK 4 (fun _ => 7) 1000).inode_table_start ≤ 150 ∧
    150 ≤ (Local.mk true 100 1000 .LSEEK 4 (fun _ => 7) 1000).archive_file_size ∧
    archive_read_at (Local.mk true 100 1000 .LSEEK 4 (fun _ => 7) 1000)
        (fun o => o) 0 false 150 10 =
      ⟨.served (readRange (fun o => o) 150 10), [], [(150, 10)], 0, fun o => o⟩ :=
  ⟨by decide, by decide,
   archive_read_at_metadata_delegates _ _ 0 false 150 10 (by decide) (by decide)⟩

/-- C1 counterexample: with `chunk_log = 16` (`chunk = 65536`), a fill
request at `start_offset = 0` of `length = 65536` makes the source
compute the window `[0, 131072)`, while the claimed formula
`(start_offset + length + chunk - 1) & not (chunk - 1)` (clipped to the
archive length `1048576`) gives `65536`: when `start_offset + length`
is already chunk-aligned the source still adds one extra chunk. -/
theorem request_window_ne_claim :
    (request_remote_data_task (Local.mk true 500000 1048576 .LSEEK 16 (fun _ => 0) 1048576)
      (fun _ => 0) 0 65536).fetched = some (0, 131072) ∧
    aligned_end_claim 16 0 65536 1048576 = 65536 ∧
    (131072 : Nat) ≠ 65536 := by
  refine ⟨by decide, by decide, by decide⟩

/-- C1 (amended): with a remote configured, `request_remote_data_task`
fetches exactly the window whose start is `start_offset` aligned down
to the chunk (`start_offset & not (chunk - 1)`) and whose end is
`((start_offset + req_size) & not (chunk - 1)) + chunk` — one full
chunk past the aligned-down request end, with no clipping of the
computed window.  Both computed bounds are chunk-aligned; the interval
actually written is cut at the remote length by HTTP-range semantics,
so its upper end `b` satisfies `b % chunk = 0` or `b = remoteLen`. -/
theorem request_remote_data_task_window (l : Local) (file : Nat → Nat)
    (s r : Nat) (hr : l.hasRemote = true) :
    (request_remote_data_task l file s r).fetched =
      some (s - s % 2 ^ l.chunk_log,
            (s + r) - (s + r) % 2 ^ l.chunk_log + 2 ^ l.chunk_log) ∧
    (s - s % 2 ^ l.chunk_log) % 2 ^ l.chunk_log = 0 ∧
    ((s + r) - (s + r) % 2 ^ l.chunk_log + 2 ^ l.chunk_log) % 2 ^ l.chunk_log = 0 ∧
    (min ((s + r) - (s + r) % 2 ^ l.chunk_log + 2 ^ l.chunk_log) l.remoteLen
        % 2 ^ l.chunk_log = 0 ∨
     min ((s + r) - (s + r) % 2 ^ l.chunk_log + 2 ^ l.chunk_log) l.remoteLen
        = l.remoteLen) := by
  have hs := shiftRight_shiftLeft_eq s l.chunk_log
  have hsr := shiftRight_shiftLeft_eq (s + r) l.chunk_log
  have hmod1 : (s - s % 2 ^ l.chunk_log) % 2 ^ l.chunk_log = 0 := by
    rw [← hs]; exact shiftRight_shiftLeft_mod s l.chunk_log
  have hmod2 : ((s + r) - (s + r) % 2 ^ l.chunk_log + 2 ^ l.chunk_log)
      % 2 ^ l.chunk_log = 0 := by
    rw [← hsr, Nat.add_mod_right]
    exact shiftRight_shiftLeft_mod (s + r) l.chunk_log
  refine ⟨?_, hmod1, hmod2, ?_⟩
  · simp only [request_remote_data_task, hr, Bool.true_eq_false, if_false,
      one_shiftLeft_eq, hs, hsr]
  · rcases Nat.le_total ((s + r) - (s + r) % 2 ^ l.chunk_log + 2 ^ l.chunk_log)
        l.remoteLen with hle | hle
    · left; rw [Nat.min_eq_left hle]; exact hmod2
    · right; exact Nat.min_eq_right hle

/-- C1 witness: concrete fill at `start_offset = 60000`,
`req_size = 20000`, `chunk_log = 16`. -/
theorem request_remote_data_task_window_witness :
    (Local.mk true 500000 1048576 .LSEEK 16 (fun _ => 0) 1048576).hasRemote = true ∧
    ((request_remote_data_task (Local.mk true 500000 1048576 .LSEEK 16 (fun _ => 0) 1048576)
        (fun _ => 0) 60000 20000).fetched =
      some (60000 - 60000 % 2 ^ 16, (60000 + 20000) - (60000 + 20000) % 2 ^ 16 + 2 ^ 16) ∧
     (60000 - 60000 % 2 ^ 16) % 2 ^ 16 = 0 ∧
     ((60000 + 20000) - (60000 + 20000) % 2 ^ 16 + 2 ^ 16) % 2 ^ 16 = 0 ∧
     (min ((60000 + 20000) - (60000 + 20000) % 2 ^ 16 + 2 ^ 16) 1048576 % 2 ^ 16 = 0 ∨
      min ((60000 + 20000) - (60000 + 20000) % 2 ^ 16 + 2 ^ 16) 1048576 = 1048576)) :=
  ⟨rfl, request_remote_data_task_window _ (fun _ => 0) 60000 20000 rfl⟩

/-- C3: the fresh-cache bootstrap branch of `Local::new` produces a
cache file of exactly the remote length, fetches exactly the inclusive
range `[meta_start, filesize - 1]` with
`meta_start = inode_table_start` aligned down to `1 << chunk_log`, and
— provided the user-metadata superblock bytes agree with the leading
bytes of the remote object (the documented remote-layout invariant) —
leaves the first `sb_bin.length` bytes of the cache equal to the
decoded superblock. -/
theorem local_new_bootstrap_spec (sb_bin : List Nat) (filesize its cl : Nat)
    (remote : Nat → Nat)
    (_hpos : 0 < filesize) (_hlen : sb_bin.length ≤ filesize)
    (hagree : ∀ i, i < sb_bin.length → sb_bin.getD i 0 = remote i) :
    (local_new_bootstrap sb_bin filesize its cl remote).len = filesize ∧
    (local_new_bootstrap sb_bin filesize its cl remote).fetched =
      ((its >>> cl) <<< cl, filesize - 1) ∧
    (its >>> cl) <<< cl = its - its % 2 ^ cl ∧
    (∀ i, i < sb_bin.length →
      (local_new_bootstrap sb_bin filesize its cl remote).contents i =
        sb_bin.getD i 0) := by
  refine ⟨rfl, rfl, shiftRight_shiftLeft_eq its cl, ?_⟩
  intro i hi
  show (if (its >>> cl) <<< cl ≤ i ∧ i < filesize then remote i
        else if i < sb_bin.length then sb_bin.getD i 0 else 0) = sb_bin.getD i 0
  by_cases hw : (its >>> cl) <<< cl ≤ i ∧ i < filesize
  · rw [if_pos hw]
    exact (hagree i hi).symm
  · rw [if_neg hw, if_pos hi]

/-- C3 witness: a three-byte superblock, a ten-byte remote object whose
leading bytes equal it, `inode_table_start = 4`, `chunk_log = 1`. -/
theorem local_new_bootstrap_spec_witness :
    (0 < 10 ∧ List.length [1, 2, 3] ≤ 10 ∧
      (∀ i, i < List.length [1, 2, 3] →
        List.getD [1, 2, 3] i 0 = List.getD [1, 2, 3] i 0)) ∧
    ((local_new_bootstrap [1, 2, 3] 10 4 1 (fun o => List.getD [1, 2, 3] o 0)).len = 10 ∧
     (local_new_bootstrap [1, 2, 3] 10 4 1 (fun o => List.getD [1, 2, 3] o 0)).fetched =
       ((4 >>> 1) <<< 1, 10 - 1) ∧
     (4 >>> 1) <<< 1 = 4 - 4 % 2 ^ 1 ∧
     (∀ i, i < List.length [1, 2, 3] →
       (local_new_bootstrap [1, 2, 3] 10 4 1
         (fun o => List.getD [1, 2, 3] o 0)).contents i = List.getD [1, 2, 3] i 0)) :=
  ⟨⟨by decide, by decide, fun i _ => rfl⟩,
   local_new_bootstrap_spec [1, 2, 3] 10 4 1 _ (by decide) (by decide)
     (fun i _ => rfl)⟩

/-- C4 counterexample: when the object carries no user-metadata map at
all (so the well-known key is absent), `Remote::get_metadata` panics
(`Option::unwrap` on `None`), modelled as `none` — it aborts instead of
failing with an error. -/
theorem get_metadata_no_map_panics :
    get_metadata (fun _ => some []) 96 ⟨10, none⟩ = none := rfl

/-- C4 (amended): whenever the user-metadata map is present,
`get_metadata` never aborts and never succeeds wrongly: a missing key
decodes (via the empty string) to zero bytes and fails with the
size-mismatch error, an invalid base64 value fails with the decode
error, a decoded length different from the superblock struct size fails
with the size-mismatch error, and otherwise it returns the decoded
bytes with the object content length.  When the map itself is absent
the operation panics (see the counterexample). -/
theorem get_metadata_cases (decode : String → Option (List Nat)) (sbSize : Nat)
    (ho : HeadOutput) (m : String → Option String)
    (hm : ho.metadata = some m) (hempty : decode "" = some [])
    (hsb : 0 < sbSize) :
    (get_metadata decode sbSize ho ≠ none) ∧
    (m superblock_key = none →
      get_metadata decode sbSize ho =
        some (.error "incorrect superblock size")) ∧
    (∀ s, m superblock_key = some s → decode s = none →
      get_metadata decode sbSize ho =
        some (.error "failed to get superblock bin from metadata")) ∧
    (∀ s bin, m superblock_key = some s → decode s = some bin →
      bin.length ≠ sbSize →
      get_metadata decode sbSize ho =
        some (.error "incorrect superblock size")) ∧
    (∀ s bin, m superblock_key = some s → decode s = some bin →
      bin.length = sbSize →
      get_metadata decode sbSize ho = some (.ok (bin, ho.contentLength))) := by
  refine ⟨?_, ?_, ?_, ?_, ?_⟩
  · simp only [get_metadata, hm, Option.map]
    cases hd : decode ((m superblock_key).getD "") with
    | none => simp
    | some bin =>
      by_cases hb : bin.length ≠ sbSize <;> simp [hb]
  · intro hk
    have h0 : (0 : Nat) ≠ sbSize := Nat.ne_of_lt hsb
    simp [get_metadata, hm, hk, hempty, h0]
  · intro s hk hd
    simp [get_metadata, hm, hk, hd]
  · intro s bin hk hd hb
    simp [get_metadata, hm, hk, hd, hb]
  · intro s bin hk hd hb
    simp [get_metadata, hm, hk, hd, hb]

/-- Concrete base64-decoder model for the C4 witness: decodes the empty
string to no bytes and the string `"sb"` to 96 zero bytes. -/
def decode0 : String → Option (List Nat) :=
  fun s => if s = "" then some []
           else if s = "sb" then some (List.replicate 96 0) else none

/-- Concrete user-metadata map for the C4 witness. -/
def meta0 : String → Option String :=
  fun k => if k = superblock_key then some "sb" else none

/-- Concrete `HeadObject` output for the C4 witness. -/
def head0 : HeadOutput := ⟨1234, some meta0⟩

/-- C4 witness: a present metadata map with a valid 96-byte superblock
value. -/
theorem get_metadata_cases_witness :
    (head0.metadata = some meta0 ∧ decode0 "" = some [] ∧ 0 < 96) ∧
    ((get_metadata decode0 96 head0 ≠ none) ∧
     (meta0 superblock_key = none →
       get_metadata decode0 96 head0 =
         some (.error "incorrect superblock size")) ∧
     (∀ s, meta0 superblock_key = some s → decode0 s = none →
       get_metadata decode0 96 head0 =
         some (.error "failed to get superblock bin from metadata")) ∧
     (∀ s bin, meta0 superblock_key = some s → decode0 s = some bin →
       bin.length ≠ 96 →
       get_metadata decode0 96 head0 =
         some (.error "incorrect superblock size")) ∧
     (∀ s bin, meta0 superblock_key = some s → decode0 s = some bin →
       bin.length = 96 →
       get_metadata decode0 96 head0 = some (.ok (bin, head0.contentLength)))) :=
  ⟨⟨rfl, rfl, by decide⟩,
   get_metadata_cases decode0 96 head0 meta0 rfl rfl (by decide)⟩

/-- C5: divergence of the source's extended-regular-file `st_blocks`
from the specified formula.  For an extended file inode of size 1000
with `sparse = 0`, `Archive::stat` computes
`(size + sparse - 511) >> 9 = 0` (u64 arithmetic), while the specified
`(size - sparse + 511) >> 9` — the formula the Linux squashfs driver
uses — gives `2`. -/
theorem stat_blocks_ext_at_failing_input :
    (Archive.stat ⟨420, 7, 3⟩ (.file_ext 1000 0 1) 0 0).st_blocks = 0 ∧
    stat_blocks_ext_claim 1000 0 = 2 ∧ (0 : Nat) ≠ 2 := by
  refine ⟨by decide, by decide, by decide⟩

/-- C6 counterexample: for an inode with `mod_time = 7`, the stat
translation yields `st_atime = 0` and `st_ctime = 0`, not the claimed
`mod_time`. -/
theorem stat_times_ne_mod_time :
    (Archive.stat ⟨420, 7, 3⟩ (.file 100) 0 0).st_atime ≠ 7 ∧
    (Archive.stat ⟨420, 7, 3⟩ (.file 100) 0 0).st_ctime ≠ 7 := by
  refine ⟨by decide, by decide⟩

/-- C6 (amended): for every inode, the stat translation sets
`st_mtime` to the inode's `mod_time` and sets `st_atime` and `st_ctime`
to `0`. -/
theorem stat_times_from_mod_time (base : InodeBase) (data : InodeData)
    (uid gid : Nat) :
    (Archive.stat base data uid gid).st_mtime = base.mod_time ∧
    (Archive.stat base data uid gid).st_atime = 0 ∧
    (Archive.stat base data uid gid).st_ctime = 0 := by
  cases data <;> exact ⟨rfl, rfl, rfl⟩

/-- C2: in `LSEEK` mode, for a read in the data region where
`lseek(fd, offset, SEEK_HOLE)` returns a position `h`, the range is
classified as a hole iff `h < offset + size`; in that case exactly the
subrange `(h, (offset + size) - h)` is passed to the fill and the
original positioned read is then issued to serve the caller, and when
`h ≥ offset + size` the read is served with no fill request and the
cache untouched. -/
theorem archive_read_at_lseek_classify (l : Local) (file : Nat → Nat)
    (h offset size : Nat) (e : Bool)
    (hmode : l.hdmode = .LSEEK) (hdata : offset < l.inode_table_start) :
    ((archive_read_at l file ((h : Nat) : Int) e offset size).fills ≠ [] ↔
      h < offset + size) ∧
    (h < offset + size →
      (archive_read_at l file ((h : Nat) : Int) e offset size).fills =
        [(h, offset + size - h)] ∧
      (archive_read_at l file ((h : Nat) : Int) e offset size).origReads =
        [(offset, size)] ∧
      (archive_read_at l file ((h : Nat) : Int) e offset size).result =
        .served (readRange
          (archive_read_at l file ((h : Nat) : Int) e offset size).outFile
          offset size)) ∧
    (offset + size ≤ h →
      archive_read_at l file ((h : Nat) : Int) e offset size =
        ⟨.served (readRange file offset size), [], [(offset, size)], 1, file⟩) := by
  have hm : is_metadata_area l offset = some false := by
    simp [is_metadata_area, hdata]
  have hneg : ¬ (((h : Nat) : Int) < 0) := Int.not_lt.mpr (Int.natCast_nonneg h)
  have key : archive_read_at l file ((h : Nat) : Int) e offset size =
      if h < offset + size then
        ⟨.served (readRange
            (request_remote_data_task l file h (offset + size - h)).outFile
            offset size),
          [(h, offset + size - h)], [(offset, size)], 1,
          (request_remote_data_task l file h (offset + size - h)).outFile⟩
      else ⟨.served (readRange file offset size), [], [(offset, size)], 1, file⟩ := by
    simp only [archive_read_at, hm, hmode]
    rw [if_neg hneg]
    rfl
  refine ⟨?_, ?_, ?_⟩
  · by_cases hcase : h < offset + size
    · rw [key, if_pos hcase]
      simp [hcase]
    · rw [key, if_neg hcase]
      simp [hcase]
  · intro hcase
    rw [key, if_pos hcase]
    exact ⟨rfl, rfl, rfl⟩
  · intro hcase
    have hc : ¬ h < offset + size := Nat.not_lt.mpr hcase
    rw [key, if_neg hc]

/-- C2 witness: a hole at position `20` inside the read `(18, 10)` of
the data region (`inode_table_start = 100`). -/
theorem archive_read_at_lseek_classify_witness :
    ((Local.mk true 100 1000 .LSEEK 4 (fun o => o % 256) 1000).hdmode = .LSEEK ∧
      18 < (Local.mk true 100 1000 .LSEEK 4 (fun o => o % 256) 1000).inode_table_start) ∧
    (((archive_read_at (Local.mk true 100 1000 .LSEEK 4 (fun o => o % 256) 1000)
        (fun _ => 0) ((20 : Nat) : Int) false 18 10).fills ≠ [] ↔ 20 < 18 + 10) ∧
     (20 < 18 + 10 →
       (archive_read_at (Local.mk true 100 1000 .LSEEK 4 (fun o => o % 256) 1000)
         (fun _ => 0) ((20 : Nat) : Int) false 18 10).fills = [(20, 18 + 10 - 20)] ∧
       (archive_read_at (Local.mk true 100 1000 .LSEEK 4 (fun o => o % 256) 1000)
         (fun _ => 0) ((20 : Nat) : Int) false 18 10).origReads = [(18, 10)] ∧
       (archive_read_at (Local.mk true 100 1000 .LSEEK 4 (fun o => o % 256) 1000)
         (fun _ => 0) ((20 : Nat) : Int) false 18 10).result =
         .served (readRange
           (archive_read_at (Local.mk true 100 1000 .LSEEK 4 (fun o => o % 256) 1000)
             (fun _ => 0) ((20 : Nat) : Int) false 18 10).outFile 18 10)) ∧
     (18 + 10 ≤ 20 →
       archive_read_at (Local.mk true 100 1000 .LSEEK 4 (fun o => o % 256) 1000)
         (fun _ => 0) ((20 : Nat) : Int) false 18 10 =
         ⟨.served (readRange (fun _ => 0) 18 10), [], [(18, 10)], 1, fun _ => 0⟩)) :=
  ⟨⟨rfl, by decide⟩,
   archive_read_at_lseek_classify _ (fun _ => 0) 20 18 10 false rfl (by decide)⟩

/-- C8 counterexample: in `ALLZERO` mode a read of size `0` in the data
region serves no bytes, so "every served byte is zero" holds vacuously
(`is_zero` of the empty buffer is `true`), yet no range is passed to
the fill. -/
theorem allzero_zero_size_no_fill :
    is_zero (readRange (fun _ => 0) 5 0) = true ∧
    (archive_read_at (Local.mk true 100 1000 .ALLZERO 12 (fun _ => 7) 1000)
      (fun _ => 0) 0 false 5 0).fills = [] := by
  refine ⟨rfl, rfl⟩

/-- C8 (amended): in `ALLZERO` mode, for a nonempty read in the data
region (with a remote configured and the read inside the remote
length), after the original read succeeds the entire requested range
`(offset, size)` is passed to the fill iff every served byte is zero;
and when the served bytes are all zero — even when that range was
already materialized — the range is re-fetched and the bytes finally
returned are exactly the remote archive's bytes for that range. -/
theorem archive_read_at_allzero_refetch (l : Local) (file : Nat → Nat)
    (offset size : Nat)
    (hmode : l.hdmode = .ALLZERO) (hdata : offset < l.inode_table_start)
    (hsz : 0 < size) (hrem : l.hasRemote = true)
    (hlen : offset + size ≤ l.remoteLen) :
    ((archive_read_at l file 0 false offset size).fills = [(offset, size)] ↔
      is_zero (readRange file offset size) = true) ∧
    (is_zero (readRange file offset size) = true →
      (archive_read_at l file 0 false offset size).result =
        .served (readRange l.remote offset size)) := by
  have hm : is_metadata_area l offset = some false := by
    simp [is_metadata_area, hdata]
  by_cases hz : is_zero (readRange file offset size) = true
  · have hlt : offset < offset + size := Nat.lt_add_of_pos_right hsz
    have hsub : offset + size - offset = size := Nat.add_sub_cancel_left offset size
    have hread : readRange
        (request_remote_data_task l file offset (offset + size - offset)).outFile
        offset size = readRange l.remote offset size := by
      rw [hsub]
      simp only [request_remote_data_task, hrem, Bool.true_eq_false, if_false,
        readRange]
      refine List.map_congr_left ?_
      intro i hi
      have hi' : i < size := List.mem_range.mp hi
      have ha : (offset >>> l.chunk_log) <<< l.chunk_log ≤ offset + i :=
        le_trans (shiftRight_shiftLeft_le offset l.chunk_log) (Nat.le_add_right _ _)
      have hb : offset + i <
          ((offset + size) >>> l.chunk_log) <<< l.chunk_log +
            (1 : Nat) <<< l.chunk_log := by
        rw [one_shiftLeft_eq]
        exact lt_of_lt_of_le (Nat.add_lt_add_left hi' offset)
          (le_of_lt (lt_shiftRight_shiftLeft_add (offset + size) l.chunk_log))
      have hrl : offset + i < l.remoteLen :=
        lt_of_lt_of_le (Nat.add_lt_add_left hi' offset) hlen
      rw [if_pos ⟨ha, lt_min hb hrl⟩]
    constructor
    · simp [archive_read_at, hm, hmode, hz, hlt, hsub]
    · intro _
      simp only [archive_read_at, hm, hmode, hz, if_pos hlt, if_true]
      rw [hread]
  · have hnz : is_zero (readRange file offset size) = false :=
      Bool.eq_false_iff.mpr hz
    constructor
    · simp [archive_read_at, hm, hmode, hnz]
    · intro hcontra
      exact absurd hcontra hz

/-- C8 witness: an all-zero (hence hole-classified) read `(5, 3)` of a
fully hole cache, data region `[0, 100)`, remote bytes all `7`. -/
theorem archive_read_at_allzero_refetch_witness :
    ((Local.mk true 100 1000 .ALLZERO 12 (fun _ => 7) 1000).hdmode = .ALLZERO ∧
      5 < (Local.mk true 100 1000 .ALLZERO 12 (fun _ => 7) 1000).inode_table_start ∧
      0 < 3 ∧
      (Local.mk true 100 1000 .ALLZERO 12 (fun _ => 7) 1000).hasRemote = true ∧
      5 + 3 ≤ (Local.mk true 100 1000 .ALLZERO 12 (fun _ => 7) 1000).remoteLen) ∧
    (((archive_read_at (Local.mk true 100 1000 .ALLZERO 12 (fun _ => 7) 1000)
        (fun _ => 0) 0 false 5 3).fills = [(5, 3)] ↔
       is_zero (readRange (fun _ => 0) 5 3) = true) ∧
     (is_zero (readRange (fun _ => 0) 5 3) = true →
       (archive_read_at (Local.mk true 100 1000 .ALLZERO 12 (fun _ => 7) 1000)
         (fun _ => 0) 0 false 5 3).result =
         .served (readRange (Local.mk true 100 1000 .ALLZERO 12 (fun _ => 7) 1000).remote 5 3))) :=
  ⟨⟨rfl, by decide, by decide, rfl, by decide⟩,
   archive_read_at_allzero_refetch _ (fun _ => 0) 5 3 rfl (by decide) (by decide)
     rfl (by decide)⟩

end S3ArchiveFs
